import Mathlib

/-!
Verification development for the typing-practice application (`src/main.py`).

The engine parts of the program are shallowly embedded here:
* `calculate_wpm_and_accuracy` (main.py lines 34-59) over `List Char` and `ℚ`
  (Python floats are modelled by exact rationals; `round(x, 2)` is modelled by
  `roundTo2`, which agrees with Python's rounding except at exact half-cent
  ties, which no statement below exercises);
* the live-grading tag computation of `TypingApp.on_text_changed`
  (lines 200-224) as `diffTags`;
* the application state and its handlers (`load_lesson_by_index`,
  `on_key_press`, `on_submit`, `close_results_and_next`) as pure functions on
  an `AppState` record, with the progress file modelled as an in-state log of
  `AttemptRecord`s;
* the JSON persistence layer (`load_lessons`, `save_progress`, the `__init__`
  fallback catalog) over an abstract `FileContent` / `PyVal` model of the
  parsed file contents, where uncaught Python exceptions are explicit values.

Definitions named `spec...` are transcriptions of the specification's wording,
used to compare the source's behaviour against the spec.
-/

namespace TypingGame

/-- Python's `round(x, 2)` modelled over `ℚ`: round `x` to two decimal places
(half-up; Python uses half-even, the two agree away from exact ties).
Uses the executable `Rat.floor`. -/
def roundTo2 (x : ℚ) : ℚ :=
  (((x * 100 + 1 / 2).floor : ℤ) : ℚ) / 100

/-- Whitespace characters recognised by Python's `str.split()`. -/
def pyIsSpace (c : Char) : Bool :=
  c = ' ' || c = '\t' || c = '\n' || c = '\r' || c = '\x0b' || c = '\x0c'

/-- Helper for `pyWordCount`: counts maximal runs of non-whitespace
characters, carrying whether we are currently inside a word. -/
def countWordsGo : Bool → List Char → ℕ
  | _, [] => 0
  | inWord, c :: rest =>
    if pyIsSpace c then countWordsGo false rest
    else (if inWord then 0 else 1) + countWordsGo true rest

/-- `len(reference_text.split())` from main.py line 37: the number of
whitespace-delimited tokens. -/
def pyWordCount (s : List Char) : ℕ :=
  countWordsGo false s

/-- The error-counting loop of main.py lines 43-50:
`for i, char in enumerate(typed_text)`, walking the typed characters with
their index `i`; when `i >= len(reference_text)` it adds the whole batch
`len(typed_text) - len(reference_text)` and breaks, otherwise it adds one
error when `char != reference_text[i]`. -/
def errCountGo (typed reference : List Char) : ℕ → List Char → ℕ
  | _, [] => 0
  | i, c :: rest =>
    if reference.length ≤ i then typed.length - reference.length
    else (if c ≠ reference.getD i ' ' then 1 else 0) + errCountGo typed reference (i + 1) rest

/-- The complete error count of main.py lines 43-53: the loop above, plus
`len(reference_text) - len(typed_text)` when the typed text is shorter
(the untyped remainder is missed). Natural subtraction matches Python's
`max(0, _)` clamping used later. -/
def pyErrors (typed reference : List Char) : ℕ :=
  errCountGo typed reference 0 typed
    + (if typed.length < reference.length then reference.length - typed.length else 0)

/-- `calculate_wpm_and_accuracy` from main.py lines 34-59, over exact
rationals.  Returns `(wpm, accuracy)`, both rounded to two decimals.
`correct_chars := total_chars - errors` in `ℕ` is Python's
`max(0, total_chars - errors)`. -/
def calculate_wpm_and_accuracy (typed_text reference_text : List Char)
    (start_time end_time : ℚ) : ℚ × ℚ :=
  let elapsed_seconds := end_time - start_time
  let word_count := pyWordCount reference_text
  let time_in_minutes := elapsed_seconds / 60
  let wpm : ℚ :=
    if 0 < time_in_minutes ∧ 0 < word_count then (word_count : ℚ) / time_in_minutes else 0
  let errors := pyErrors typed_text reference_text
  let total_chars := reference_text.length
  let correct_chars : ℕ := total_chars - errors
  let accuracy : ℚ :=
    if total_chars ≠ 0 then ((correct_chars : ℚ) / (total_chars : ℚ)) * 100 else 0
  (roundTo2 wpm, roundTo2 accuracy)

/-- Spec-side (claim C2): the number of indices within reference bounds where
the typed character differs from the reference character. -/
def specMismatches (typed reference : List Char) : ℕ :=
  (List.range (min typed.length reference.length)).countP
    (fun i => typed.getD i ' ' != reference.getD i ' ')

/-- Spec-side (claim C2): mismatches within reference bounds, plus
`len(typed) - len(reference)` when typed is longer, plus
`len(reference) - len(typed)` when typed is shorter. -/
def specErrors (typed reference : List Char) : ℕ :=
  specMismatches typed reference
    + (if reference.length < typed.length then typed.length - reference.length else 0)
    + (if typed.length < reference.length then reference.length - typed.length else 0)

/-- Spec-side (claim C2): accuracy is
`round(max(0, len(reference) - errors) / len(reference) * 100, 2)` for a
non-empty reference, and `0` for an empty one, with `errors = specErrors`. -/
def specAccuracy (typed reference : List Char) : ℚ :=
  if reference.length ≠ 0 then
    roundTo2 (((max 0 ((reference.length : ℤ) - (specErrors typed reference : ℤ)) : ℤ) : ℚ)
      / (reference.length : ℚ) * 100)
  else 0

/-- Spec-side (claim C4): wpm is the whitespace-delimited token count of the
reference divided by the elapsed minutes, rounded to two decimals, when both
are strictly positive, else `0`. -/
def specWpm (reference : List Char) (startedAt endedAt : ℚ) : ℚ :=
  let elapsedMinutes := (endedAt - startedAt) / 60
  let wordCount := pyWordCount reference
  if 0 < elapsedMinutes ∧ 0 < wordCount then roundTo2 ((wordCount : ℚ) / elapsedMinutes)
  else 0

/-- Proof-side helper: the mismatch count of the index-by-index walk, phrased
structurally on both lists (no excess batch, no missing tail). -/
def zipErr : List Char → List Char → ℕ
  | [], _ => 0
  | _ :: _, [] => 0
  | c :: t, r :: rs => (if c ≠ r then 1 else 0) + zipErr t rs

/-- A 100000-character reference, used to exhibit a rounding artefact of the
accuracy formula on very long lessons. -/
def bigRef : List Char := List.replicate 100000 'a'

/-- A typed text differing from `bigRef` in exactly its first character. -/
def bigTyped : List Char := 'b' :: List.replicate 99999 'a'

/-- The two text-widget tags used by the live grader
(`"correct"` / `"incorrect"`, main.py lines 134-136). -/
inductive CharTag
  | correct
  | incorrect
  deriving DecidableEq

/-- The per-character classification computed by `TypingApp.on_text_changed`
(main.py lines 217-224): for each index `i` of the typed text, tag
`"correct"` when `i < len(reference) and typed[i] == reference[i]`, else
`"incorrect"`.  Indices of the reference beyond the typed text get no tag. -/
def diffTags (typed reference : List Char) : List CharTag :=
  (List.range typed.length).map fun i =>
    if i < reference.length ∧ typed.getD i ' ' = reference.getD i ' ' then CharTag.correct
    else CharTag.incorrect

/-- A lesson entry: the JSON lesson dicts carry keys `id`, `title`,
`content` (see `lessons.json` usage throughout main.py). -/
structure Lesson where
  id : ℤ
  title : String
  content : String
  deriving DecidableEq, Inhabited

/-- The progress record built in `TypingApp.on_submit` (main.py lines
245-252).  The ISO timestamp is modelled by the submit time. -/
structure AttemptRecord where
  user : String
  lessonId : ℤ
  lessonTitle : String
  timestamp : ℚ
  wpm : ℚ
  accuracy : ℚ
  deriving DecidableEq

/-- The engine-relevant state of `TypingApp`: the loaded lesson list, the
current index, the selected lesson, the session-timer state
(`start_time` / `user_started_typing`), the text-widget buffer, and the
records appended to `progress.json` so far (`log`). -/
structure AppState where
  lessons : List Lesson
  current_lesson_index : ℤ
  selected_lesson : Option Lesson
  start_time : Option ℚ
  user_started_typing : Bool
  typedBuf : List Char
  log : List AttemptRecord
  deriving DecidableEq

/-- Python's `str.rstrip("\n")`: drop all trailing newline characters
(main.py line 234 applies it to the widget text). -/
def rstripNL (s : List Char) : List Char :=
  (s.reverse.dropWhile fun c => c = '\n').reverse

/-- `TypingApp.load_lesson_by_index` (main.py lines 145-166): out-of-range
indices return with no state change; otherwise select the lesson, clear the
typed text, and reset the typing-timer state. -/
def load_lesson_by_index (s : AppState) (index : ℤ) : AppState :=
  if index < 0 ∨ (s.lessons.length : ℤ) ≤ index then s
  else
    { s with
      current_lesson_index := index
      selected_lesson := some (s.lessons.getD index.toNat default)
      typedBuf := []
      user_started_typing := false
      start_time := none }

/-- `TypingApp.on_key_press` (main.py lines 179-183): the first keystroke
starts the timer; later keystrokes change nothing here. -/
def on_key_press (s : AppState) (now : ℚ) : AppState :=
  if s.user_started_typing then s
  else { s with user_started_typing := true, start_time := some now }

/-- `TypingApp.on_submit` (main.py lines 226-256): bail out when no lesson
is selected or the user never typed; otherwise score the (newline-stripped)
buffer against the lesson content and append a progress record.  `end_time`
stands for `time.time()` at submit, `username` for the name-entry text. -/
def on_submit (s : AppState) (end_time : ℚ) (username : String) : AppState :=
  match s.selected_lesson with
  | none => s
  | some lesson =>
    if s.user_started_typing = false then s
    else
      let typed := rstripNL s.typedBuf
      let scores := calculate_wpm_and_accuracy typed lesson.content.data
        (s.start_time.getD 0) end_time
      let record : AttemptRecord :=
        { user := if username.trim = "" then "Anonymous" else username.trim
          lessonId := lesson.id
          lessonTitle := lesson.title
          timestamp := end_time
          wpm := scores.1
          accuracy := scores.2 }
      { s with log := s.log ++ [record] }

/-- Outcome of `TypingApp.close_results_and_next`: either the next lesson
was loaded, or the terminal all-lessons-complete window was shown (state
unchanged, no new session). -/
inductive AdvanceResult
  | nextLesson (s : AppState)
  | complete (s : AppState)
  deriving DecidableEq

/-- `TypingApp.close_results_and_next` (main.py lines 273-288): advance to
`current_lesson_index + 1` when that is still a valid index, else show the
completion notification. -/
def close_results_and_next (s : AppState) : AdvanceResult :=
  let next_index := s.current_lesson_index + 1
  if next_index < (s.lessons.length : ℤ) then
    AdvanceResult.nextLesson (load_lesson_by_index s next_index)
  else
    AdvanceResult.complete s

/-- Values obtained from `json.load` (restricted to the shapes the program
touches). -/
inductive PyVal
  | pint (n : ℤ)
  | pstr (s : String)
  | plist (items : List PyVal)
  | pdict (fields : List (String × PyVal))

/-- The uncaught Python exceptions relevant to the persistence layer. -/
inductive PyExn
  | jsonDecodeError
  | keyError
  | typeError
  | attributeError
  deriving DecidableEq

/-- Result of a loading operation: a returned value, or an uncaught
exception propagating to the caller. -/
inductive PyResult
  | ok (v : PyVal)
  | exn (e : PyExn)

/-- A persisted file as seen by `json.load`: absent (open raises
`FileNotFoundError`), present but not valid JSON (`json.load` raises
`JSONDecodeError`), or parsed to a value. -/
inductive FileContent
  | absent
  | unparseable
  | parsed (v : PyVal)

/-- Python `dict.get` on the (duplicate-free) field list of a parsed JSON
object. -/
def lookupField (key : String) : List (String × PyVal) → Option PyVal
  | [] => none
  | (k, v) :: rest => if k = key then some v else lookupField key rest

/-- Replace the value stored under `key`, keeping all other fields:
the effect of mutating `data[key]` before dumping `data` back. -/
def setField (key : String) (v : PyVal) : List (String × PyVal) → List (String × PyVal)
  | [] => []
  | (k, w) :: rest => if k = key then (k, v) :: rest else (k, w) :: setField key v rest

/-- `load_lessons` (main.py lines 11-19): a missing file is caught and
yields `[]`; invalid JSON propagates `JSONDecodeError`; a parsed dict
yields `data.get('lessons', [])`; `.get` on a non-dict raises
`AttributeError`. -/
def load_lessons : FileContent → PyResult
  | .absent => .ok (.plist [])
  | .unparseable => .exn .jsonDecodeError
  | .parsed (.pdict fields) => .ok ((lookupField "lessons" fields).getD (.plist []))
  | .parsed _ => .exn .attributeError

/-- Result of `save_progress`: the new progress-file content, or an
uncaught exception. -/
inductive SaveResult
  | written (f : FileContent)
  | exn (e : PyExn)

/-- `save_progress` (main.py lines 21-32): read-modify-write on
`progress.json`.  A missing file initialises `{"attempts": []}`; invalid
JSON propagates `JSONDecodeError`; `data["attempts"]` raises `KeyError`
when the key is missing and `TypeError` on a non-dict; `.append` on a
non-list raises `AttributeError`. -/
def save_progress (file : FileContent) (record : PyVal) : SaveResult :=
  match file with
  | .absent => .written (.parsed (.pdict [("attempts", .plist [record])]))
  | .unparseable => .exn .jsonDecodeError
  | .parsed (.pdict fields) =>
    match lookupField "attempts" fields with
    | some (.plist items) =>
      .written (.parsed (.pdict (setField "attempts" (.plist (items ++ [record])) fields)))
    | some _ => .exn .attributeError
    | none => .exn .keyError
  | .parsed _ => .exn .typeError

/-- `save_progress` iterated over a list of records; `none` when some call
raised. -/
def runAppends : FileContent → List PyVal → Option FileContent
  | f, [] => some f
  | f, r :: rs =>
    match save_progress f r with
    | .written f2 => runAppends f2 rs
    | .exn _ => none

/-- The fallback lesson installed by `TypingApp.__init__`
(main.py lines 71-75). -/
def placeholderLesson : PyVal :=
  .pdict [("id", .pint 1), ("title", .pstr "No Lessons Found"),
    ("content", .pstr "Please check lessons.json")]

/-- Python truthiness for the values `load_lessons` can return. -/
def pyTruthy : PyVal → Bool
  | .pint n => n != 0
  | .pstr s => s != ""
  | .plist items => !items.isEmpty
  | .pdict fields => !fields.isEmpty

/-- The catalog-initialisation of `TypingApp.__init__` (main.py lines
68-75): `self.lessons = load_lessons()`, replaced by the single-element
placeholder list when falsy; `none` when `load_lessons` raised. -/
def initLessons (file : FileContent) : Option PyVal :=
  match load_lessons file with
  | .exn _ => none
  | .ok v => some (if pyTruthy v then v else .plist [placeholderLesson])

/-- Whether a load result is an uncaught exception. -/
def isExnResult : PyResult → Bool
  | .ok _ => false
  | .exn _ => true

/-- A lessons file that parses as JSON but (through a corrupted key) holds
no `"lessons"` entry. -/
def corruptLessonsFile : FileContent := .parsed (.pdict [("lesson", .plist [])])

/-- A concrete one-lesson application state with a typed buffer and a
running timer (the user has typed), used for concrete instantiations. -/
def lessonA : Lesson := { id := 1, title := "Home Row", content := "abc" }

/-- A second lesson, for states whose catalog has two entries. -/
def lessonB : Lesson := { id := 2, title := "Top Row", content := "qwe" }

/-- One-lesson state, mid-session: lesson selected, typing started. -/
def sActive : AppState :=
  { lessons := [lessonA]
    current_lesson_index := 0
    selected_lesson := some lessonA
    start_time := some 0
    user_started_typing := true
    typedBuf := "abc".data
    log := [] }

/-- Two-lesson state at index 0, mid-session. -/
def sTwo : AppState :=
  { lessons := [lessonA, lessonB]
    current_lesson_index := 0
    selected_lesson := some lessonA
    start_time := some 0
    user_started_typing := true
    typedBuf := "abc".data
    log := [] }

/-- `roundTo2` expressed through the ambient `Int.floor`, for proofs. -/
theorem roundTo2_eq_intFloor (x : ℚ) :
    roundTo2 x = ((⌊x * 100 + 1 / 2⌋ : ℤ) : ℚ) / 100 := by
  rw [roundTo2, Rat.floor_def, ← Rat.floor_def']

theorem roundTo2_zero : roundTo2 0 = 0 := by
  rw [roundTo2_eq_intFloor]
  norm_num

/-- Evaluation rule for `roundTo2` at a known integer floor. -/
theorem roundTo2_eq (x : ℚ) (z : ℤ) (h1 : (z : ℚ) ≤ x * 100 + 1 / 2)
    (h2 : x * 100 + 1 / 2 < z + 1) : roundTo2 x = (z : ℚ) / 100 := by
  rw [roundTo2_eq_intFloor]
  congr 2
  exact Int.floor_eq_iff.mpr ⟨h1, by exact_mod_cast h2⟩

/-- The indexed error loop equals the structural two-list walk plus the
single batch of trailing extra characters (added exactly when the typed text
is longer than the reference). -/
theorem errCountGo_eq (typed reference : List Char) :
    ∀ (rest : List Char) (i : ℕ), rest = typed.drop i → i ≤ reference.length →
      errCountGo typed reference i rest =
        zipErr rest (reference.drop i) +
          (if reference.length < typed.length then typed.length - reference.length else 0) := by
  intro rest
  induction rest with
  | nil =>
    intro i hrest hi
    have hlen : typed.length ≤ i := by
      have h := congrArg List.length hrest
      simp only [List.length_nil, List.length_drop] at h
      omega
    have hnot : ¬ reference.length < typed.length := by omega
    simp [errCountGo, zipErr, hnot]
  | cons c rest ih =>
    intro i hrest hi
    have hlen : i < typed.length := by
      have h := congrArg List.length hrest
      simp only [List.length_cons, List.length_drop] at h
      omega
    have hdrop : typed.drop (i + 1) = rest := by
      have h1 : typed.drop (i + 1) = (typed.drop i).drop 1 := by
        rw [List.drop_drop]
      rw [h1, ← hrest, List.drop_one, List.tail_cons]
    by_cases hri : reference.length ≤ i
    · have hrefdrop : reference.drop i = [] := List.drop_eq_nil_of_le hri
      have hlt : reference.length < typed.length := by omega
      simp [errCountGo, zipErr, hri, hrefdrop, hlt]
    · push_neg at hri
      have hrefdrop : reference.drop i = reference[i] :: reference.drop (i + 1) :=
        List.drop_eq_getElem_cons hri
      have hgetD : reference.getD i ' ' = reference[i] := List.getD_eq_getElem _ _ hri
      have harm : errCountGo typed reference i (c :: rest) =
          (if c ≠ reference.getD i ' ' then 1 else 0)
            + errCountGo typed reference (i + 1) rest := by
        simp [errCountGo, Nat.not_le.mpr hri]
      rw [harm, ih (i + 1) hdrop.symm (by omega), hrefdrop, zipErr, hgetD]
      omega

/-- The structural walk counts exactly the in-bounds mismatching indices. -/
theorem zipErr_eq_specMismatches : ∀ t r : List Char, zipErr t r = specMismatches t r := by
  intro t
  induction t with
  | nil => intro r; simp [zipErr, specMismatches]
  | cons c t ih =>
    intro r
    cases r with
    | nil => simp [zipErr, specMismatches]
    | cons d rs =>
      rw [zipErr, ih rs]
      simp only [specMismatches, List.length_cons, Nat.succ_min_succ, List.range_succ_eq_map,
        List.countP_cons, List.countP_map, Function.comp_def, Nat.succ_eq_add_one,
        List.getD_eq_getElem?_getD, List.getElem?_cons_succ, List.getElem?_cons_zero]
      by_cases hcd : c = d <;> simp [hcd] <;> omega

/-- C2's error-count formula: the code's error count (indexed loop with the
early-exit batch, plus the missing tail) equals the spec's formula. -/
theorem pyErrors_eq_specErrors (typed reference : List Char) :
    pyErrors typed reference = specErrors typed reference := by
  have h := errCountGo_eq typed reference typed 0 (List.drop_zero typed).symm (Nat.zero_le _)
  rw [List.drop_zero] at h
  rw [pyErrors, h, specErrors, ← zipErr_eq_specMismatches]

theorem zipErr_self : ∀ l : List Char, zipErr l l = 0 := by
  intro l
  induction l with
  | nil => rfl
  | cons c t ih => simp [zipErr, ih]

/-- If the structural walk finds no mismatch and the lengths agree, the two
strings are equal. -/
theorem eq_of_zipErr_zero : ∀ t r : List Char, zipErr t r = 0 → t.length = r.length → t = r := by
  intro t
  induction t with
  | nil =>
    intro r h hl
    cases r with
    | nil => rfl
    | cons d rs => simp at hl
  | cons c t ih =>
    intro r h hl
    cases r with
    | nil => simp at hl
    | cons d rs =>
      rw [zipErr] at h
      by_cases hcd : c = d
      · subst hcd
        rw [if_neg (by simp)] at h
        simp only [Nat.zero_add] at h
        have ht := ih rs h (by simpa using hl)
        rw [ht]
      · rw [if_pos hcd] at h
        omega

theorem accuracy_eq_specAccuracy (typed reference : List Char) (s e : ℚ) :
    (calculate_wpm_and_accuracy typed reference s e).2 = specAccuracy typed reference := by
  simp only [calculate_wpm_and_accuracy, specAccuracy]
  by_cases h : reference.length = 0
  · rw [if_neg (by omega), if_neg (by omega), roundTo2_zero]
  · rw [if_pos h, if_pos h, pyErrors_eq_specErrors]
    have hz : ((reference.length - specErrors typed reference : ℕ) : ℤ)
        = max 0 ((reference.length : ℤ) - (specErrors typed reference : ℤ)) := by omega
    have hcast : ((reference.length - specErrors typed reference : ℕ) : ℚ)
        = ((max 0 ((reference.length : ℤ) - (specErrors typed reference : ℤ)) : ℤ) : ℚ) := by
      exact_mod_cast congrArg (fun z : ℤ => (z : ℚ)) hz
    rw [hcast]

theorem wpm_eq_specWpm (typed reference : List Char) (s e : ℚ) :
    (calculate_wpm_and_accuracy typed reference s e).1 = specWpm reference s e := by
  simp only [calculate_wpm_and_accuracy, specWpm]
  by_cases h : 0 < (e - s) / 60 ∧ 0 < pyWordCount reference
  · rw [if_pos h, if_pos h]
  · rw [if_neg h, if_neg h, roundTo2_zero]

/-- An error count of zero forces the typed text to equal the reference. -/
theorem eq_of_pyErrors_zero (typed reference : List Char)
    (h : pyErrors typed reference = 0) : typed = reference := by
  have hgo := errCountGo_eq typed reference typed 0 (List.drop_zero typed).symm (Nat.zero_le _)
  rw [List.drop_zero] at hgo
  rw [pyErrors, hgo] at h
  have hz : zipErr typed reference = 0 := by split_ifs at h <;> omega
  have hlen : typed.length = reference.length := by split_ifs at h <;> omega
  exact eq_of_zipErr_zero typed reference hz hlen

theorem bigRef_length : bigRef.length = 100000 := by
  rw [bigRef, List.length_replicate]

theorem bigTyped_length : bigTyped.length = 100000 := by
  rw [bigTyped, List.length_cons, List.length_replicate]

theorem big_errors : pyErrors bigTyped bigRef = 1 := by
  have hgo := errCountGo_eq bigTyped bigRef bigTyped 0 (List.drop_zero _).symm (Nat.zero_le _)
  rw [List.drop_zero] at hgo
  rw [pyErrors, hgo]
  have hz : zipErr bigTyped bigRef = 1 := by
    have hb : bigRef = 'a' :: List.replicate 99999 'a' := by
      rw [bigRef, show (100000 : ℕ) = 99999 + 1 from rfl, List.replicate_succ]
    rw [hb, bigTyped, zipErr, zipErr_self]
    simp
  rw [hz, if_neg (by rw [bigRef_length, bigTyped_length]; omega),
    if_neg (by rw [bigRef_length, bigTyped_length]; omega)]

/-- C2: the error count of `calculate_wpm_and_accuracy` equals the spec's
formula (in-bounds mismatches, plus the surplus of typed over reference,
plus the shortfall of typed under reference); the returned accuracy equals
`round(max(0, len(reference) - errors) / len(reference) * 100, 2)` for a
non-empty reference and `0` for an empty one; and
`score("abc", "abd", ...)` yields accuracy `66.67`. -/
theorem score_error_count_and_accuracy_match_spec :
    (∀ typed reference : List Char, pyErrors typed reference = specErrors typed reference)
    ∧ (∀ (typed reference : List Char) (s e : ℚ),
        (calculate_wpm_and_accuracy typed reference s e).2 = specAccuracy typed reference)
    ∧ (calculate_wpm_and_accuracy ['a', 'b', 'c'] ['a', 'b', 'd'] 0 60).2 = 6667 / 100 := by
  refine ⟨pyErrors_eq_specErrors, accuracy_eq_specAccuracy, ?_⟩
  have hE : pyErrors ['a', 'b', 'c'] ['a', 'b', 'd'] = 1 := by decide
  simp only [calculate_wpm_and_accuracy, hE]
  norm_num
  rw [roundTo2_eq _ 6667 (by norm_num) (by norm_num)]
  norm_num

/-- C4: the returned wpm equals the whitespace-token count of the reference
divided by the elapsed minutes, rounded to two decimals, when both are
strictly positive, else `0`; a 3-word reference over 60 seconds gives
`wpm = 3`; zero elapsed time gives `wpm = 0` for every reference. -/
theorem score_wpm_matches_spec :
    (∀ (typed reference : List Char) (s e : ℚ),
        (calculate_wpm_and_accuracy typed reference s e).1 = specWpm reference s e)
    ∧ (calculate_wpm_and_accuracy [] ['a', ' ', 'b', ' ', 'c'] 0 60).1 = 3
    ∧ (∀ (typed reference : List Char) (t : ℚ),
        (calculate_wpm_and_accuracy typed reference t t).1 = 0) := by
  refine ⟨wpm_eq_specWpm, ?_, ?_⟩
  · have hW : pyWordCount ['a', ' ', 'b', ' ', 'c'] = 3 := by decide
    simp only [calculate_wpm_and_accuracy, hW]
    norm_num
    rw [roundTo2_eq _ 300 (by norm_num) (by norm_num)]
    norm_num
  · intro typed reference t
    simp only [calculate_wpm_and_accuracy]
    rw [if_neg (by norm_num), roundTo2_zero]

/-- C10 counterexample: a typed text differing from a 100000-character
reference in exactly one character still gets accuracy `100`
(`round(99.999, 2) = 100.0`), so accuracy `100` does not imply the typed
text equals the reference. -/
theorem accuracy_100_with_one_error :
    (calculate_wpm_and_accuracy bigTyped bigRef 0 60).2 = 100 ∧ bigTyped ≠ bigRef := by
  constructor
  · simp only [calculate_wpm_and_accuracy, big_errors, bigRef_length]
    rw [if_pos (by norm_num)]
    norm_num
    rw [roundTo2_eq _ 10000 (by norm_num) (by norm_num)]
    norm_num
  · intro h
    have hgd : bigTyped.getD 0 ' ' = bigRef.getD 0 ' ' := by rw [h]
    rw [bigTyped, List.getD_cons_zero, bigRef,
      show (100000 : ℕ) = 99999 + 1 from rfl, List.replicate_succ, List.getD_cons_zero] at hgd
    exact absurd hgd (by decide)

/-- C10 (amended): for a non-empty reference shorter than 20000 characters,
accuracy `100` does imply the typed text equals the reference (with at least
one error, accuracy is at most `100 - 100/len`, which rounds below `100`
exactly when `len < 20000`). -/
theorem accuracy_100_implies_equal (typed reference : List Char) (s e : ℚ)
    (hne : reference ≠ []) (hshort : reference.length < 20000)
    (hacc : (calculate_wpm_and_accuracy typed reference s e).2 = 100) :
    typed = reference := by
  have hlen0 : reference.length ≠ 0 := by
    intro h0
    exact hne (List.length_eq_zero.mp h0)
  simp only [calculate_wpm_and_accuracy] at hacc
  rw [if_pos hlen0, roundTo2_eq_intFloor,
    div_eq_iff (by norm_num : (100 : ℚ) ≠ 0)] at hacc
  norm_num at hacc
  have hge : (10000 : ℚ) ≤ ((reference.length - pyErrors typed reference : ℕ) : ℚ)
      / (reference.length : ℚ) * 100 * 100 + 1 / 2 := by
    have hfloor := Int.floor_le (((reference.length - pyErrors typed reference : ℕ) : ℚ)
      / (reference.length : ℚ) * 100 * 100 + 1 / 2)
    rw [hacc] at hfloor
    exact_mod_cast hfloor
  have hE0 : pyErrors typed reference = 0 := by
    by_contra hE
    have hE1 : 1 ≤ pyErrors typed reference := Nat.pos_of_ne_zero hE
    have hT1 : 1 ≤ reference.length := Nat.pos_of_ne_zero hlen0
    have hn : (reference.length - pyErrors typed reference : ℕ) ≤ reference.length - 1 := by
      omega
    have hc : ((reference.length - pyErrors typed reference : ℕ) : ℚ)
        ≤ (reference.length : ℚ) - 1 := by
      have hcast : ((reference.length - 1 : ℕ) : ℚ) = (reference.length : ℚ) - 1 := by
        push_cast [Nat.cast_sub hT1]
        ring
      rw [← hcast]
      exact_mod_cast hn
    have hTpos : (0 : ℚ) < (reference.length : ℚ) := by exact_mod_cast hT1
    have hTlt : (reference.length : ℚ) < 20000 := by exact_mod_cast hshort
    have hmul := mul_le_mul_of_nonneg_right hge (le_of_lt hTpos)
    have hXT : (((reference.length - pyErrors typed reference : ℕ) : ℚ)
        / (reference.length : ℚ) * 100 * 100 + 1 / 2) * (reference.length : ℚ)
        = ((reference.length - pyErrors typed reference : ℕ) : ℚ) * 10000
          + (reference.length : ℚ) / 2 := by
      field_simp
      ring
    rw [hXT] at hmul
    linarith
  exact eq_of_pyErrors_zero typed reference hE0

/-- C10 witness: the amended theorem applied at a concrete input. -/
theorem accuracy_100_implies_equal_witness :
    (['a'] : List Char) ≠ [] ∧ (['a'] : List Char).length < 20000
    ∧ (calculate_wpm_and_accuracy ['a'] ['a'] 0 1).2 = 100
    ∧ (['a'] : List Char) = ['a'] := by
  have hacc : (calculate_wpm_and_accuracy ['a'] ['a'] 0 1).2 = 100 := by
    have hE : pyErrors ['a'] ['a'] = 0 := by decide
    simp only [calculate_wpm_and_accuracy, hE]
    norm_num
    rw [roundTo2_eq _ 10000 (by norm_num) (by norm_num)]
    norm_num
  exact ⟨by decide, by decide, hacc,
    accuracy_100_implies_equal ['a'] ['a'] 0 1 (by decide) (by decide) hacc⟩

/-- C3 counterexample: for typed `""` and reference `"ab"` the live grader
emits no classification at all (its output has one entry per *typed*
character), not one per index up to `max(len(typed), len(reference))`; in
particular there are no `Missing` entries. -/
theorem diffTags_produces_no_missing_entries :
    (diffTags [] ['a', 'b']).length = 0
    ∧ (diffTags [] ['a', 'b']).length
        ≠ max ([] : List Char).length (['a', 'b'] : List Char).length := by
  constructor <;> decide

/-- C3 (amended): the diff classifies exactly the indices of the typed text
(one tag per typed character, none for the untyped reference tail): index
`i` is `correct` iff `i` is within the reference and the characters agree,
else `incorrect` (covering both mismatches and extra characters); when the
typed text is a strict prefix of the reference of length `k`, all `k` tags
are `correct` and no tag marks the missing tail. -/
theorem diffTags_classifies_typed_indices_only :
    (∀ typed reference : List Char, (diffTags typed reference).length = typed.length)
    ∧ (∀ (typed reference : List Char) (i : ℕ), i < typed.length →
        (diffTags typed reference).getD i CharTag.incorrect =
          (if i < reference.length ∧ typed.getD i ' ' = reference.getD i ' '
           then CharTag.correct else CharTag.incorrect))
    ∧ (∀ (reference : List Char) (k : ℕ), k < reference.length →
        diffTags (reference.take k) reference = List.replicate k CharTag.correct) := by
  refine ⟨?_, ?_, ?_⟩
  · intro typed reference
    simp [diffTags]
  · intro typed reference i hi
    have hlen : i < (diffTags typed reference).length := by
      simpa [diffTags] using hi
    rw [List.getD_eq_getElem _ _ hlen]
    simp [diffTags]
  · intro reference k hk
    have hlen : (reference.take k).length = k := by
      rw [List.length_take]
      omega
    rw [List.eq_replicate_iff]
    refine ⟨by simp [diffTags, hlen], ?_⟩
    intro b hb
    simp only [diffTags, hlen, List.mem_map, List.mem_range] at hb
    obtain ⟨i, hik, hbi⟩ := hb
    have hi1 : i < (reference.take k).length := by omega
    have hi2 : i < reference.length := by omega
    have htake : (reference.take k)[i] = reference[i] :=
      (List.getElem_take' reference hi2 hik).symm
    rw [← hbi, if_pos ⟨hi2, by
      rw [List.getD_eq_getElem _ _ hi1, List.getD_eq_getElem _ _ hi2, htake]⟩]

/-- C3 witness: the amended theorem applied at concrete inputs. -/
theorem diffTags_classifies_typed_indices_only_witness :
    (diffTags ['a'] ['a', 'b']).length = 1
    ∧ (diffTags ['a'] ['a', 'b']).getD 0 CharTag.incorrect = CharTag.correct
    ∧ diffTags ((['a', 'b'] : List Char).take 1) ['a', 'b']
        = List.replicate 1 CharTag.correct := by
  refine ⟨diffTags_classifies_typed_indices_only.1 ['a'] ['a', 'b'], ?_,
    diffTags_classifies_typed_indices_only.2.2 ['a', 'b'] 1 (by decide)⟩
  rw [diffTags_classifies_typed_indices_only.2.1 ['a'] ['a', 'b'] 0 (by decide)]
  decide

/-- C1 counterexample: from a session with a keystroke recorded, two
consecutive submits (no intervening keystroke, no lesson load) append two
records to the progress log, not one — `on_submit` never clears
`user_started_typing`, so its guard does not stop a second submit. -/
theorem double_submit_appends_two_records :
    (on_submit (on_submit sActive 60 "u") 60 "u").log.length = 2
    ∧ (on_submit (on_submit sActive 60 "u") 60 "u").log.length
        ≠ sActive.log.length + 1 := by
  constructor <;> decide

/-- C1 (amended): while a lesson is selected and a keystroke has occurred
since the last lesson load, every submit appends one record; in particular
two consecutive submits append two records.  Only loading a lesson resets
the guard. -/
theorem on_submit_appends_whenever_typing_started (s : AppState) (lesson : Lesson)
    (t1 t2 : ℚ) (u1 u2 : String)
    (hsel : s.selected_lesson = some lesson)
    (htyped : s.user_started_typing = true) :
    (on_submit s t1 u1).log.length = s.log.length + 1
    ∧ (on_submit (on_submit s t1 u1) t2 u2).log.length = s.log.length + 2 := by
  simp [on_submit, hsel, htyped, List.length_append]

/-- C1 witness: the amended theorem applied at a concrete mid-session
state. -/
theorem on_submit_appends_whenever_typing_started_witness :
    (on_submit sActive 60 "u").log.length = sActive.log.length + 1
    ∧ (on_submit (on_submit sActive 60 "u") 60 "u").log.length = sActive.log.length + 2 :=
  on_submit_appends_whenever_typing_started sActive lessonA 60 60 "u" "u" rfl rfl

theorem load_out_range (s : AppState) (index : ℤ)
    (h : index < 0 ∨ (s.lessons.length : ℤ) ≤ index) :
    load_lesson_by_index s index = s := by
  rw [load_lesson_by_index, if_pos h]

theorem load_in_range (s : AppState) (index : ℤ) (hlo : 0 ≤ index)
    (hhi : index < (s.lessons.length : ℤ)) :
    load_lesson_by_index s index =
      { s with
        current_lesson_index := index
        selected_lesson := some (s.lessons.getD index.toNat default)
        typedBuf := []
        user_started_typing := false
        start_time := none } := by
  rw [load_lesson_by_index, if_neg (by omega)]

/-- C6 counterexample: fetching an out-of-range lesson index (too large or
negative) leaves the state untouched — a silent no-op, not an OutOfRange
failure (the function has no error outcome at all). -/
theorem lesson_fetch_out_of_range_silent :
    load_lesson_by_index sActive 5 = sActive ∧ load_lesson_by_index sActive (-1) = sActive :=
  ⟨rfl, rfl⟩

/-- C6 (amended): for an index outside `[0, count)` the fetch silently
returns the state unchanged (no error is raised); for an index within
`[0, count)` it selects the lesson at that position. -/
theorem load_lesson_by_index_noop_or_loads (s : AppState) (index : ℤ) :
    ((index < 0 ∨ (s.lessons.length : ℤ) ≤ index) → load_lesson_by_index s index = s)
    ∧ (0 ≤ index → index < (s.lessons.length : ℤ) →
        (load_lesson_by_index s index).current_lesson_index = index
        ∧ (load_lesson_by_index s index).selected_lesson
            = some (s.lessons.getD index.toNat default)) := by
  refine ⟨load_out_range s index, ?_⟩
  intro hlo hhi
  rw [load_in_range s index hlo hhi]
  exact ⟨rfl, rfl⟩

/-- C6 witness: the amended theorem applied at concrete indices. -/
theorem load_lesson_by_index_noop_or_loads_witness :
    load_lesson_by_index sActive 5 = sActive
    ∧ (load_lesson_by_index sActive 0).current_lesson_index = 0
    ∧ (load_lesson_by_index sActive 0).selected_lesson
        = some (sActive.lessons.getD (0 : ℤ).toNat default) :=
  ⟨(load_lesson_by_index_noop_or_loads sActive 5).1 (Or.inr (by decide)),
   ((load_lesson_by_index_noop_or_loads sActive 0).2 (by decide) (by decide)).1,
   ((load_lesson_by_index_noop_or_loads sActive 0).2 (by decide) (by decide)).2⟩

/-- C9: advancing from the last valid index (`currentIndex + 1 ≥ count`)
yields the terminal completion notification with the state unchanged and no
new session; advancing from any earlier (valid) index loads the lesson at
`index + 1`. -/
theorem advance_completes_or_increments (s : AppState) (h0 : 0 ≤ s.current_lesson_index) :
    ((s.lessons.length : ℤ) ≤ s.current_lesson_index + 1 →
      close_results_and_next s = AdvanceResult.complete s)
    ∧ (s.current_lesson_index + 1 < (s.lessons.length : ℤ) →
      ∃ s2, close_results_and_next s = AdvanceResult.nextLesson s2
        ∧ s2.current_lesson_index = s.current_lesson_index + 1) := by
  constructor
  · intro h
    simp only [close_results_and_next]
    rw [if_neg (by omega)]
  · intro h
    refine ⟨load_lesson_by_index s (s.current_lesson_index + 1), ?_, ?_⟩
    · simp only [close_results_and_next]
      rw [if_pos (by omega)]
    · rw [load_in_range s _ (by omega) h]

/-- C9 witness: the theorem applied to a one-lesson state at its last index
and to a two-lesson state at its first index. -/
theorem advance_completes_or_increments_witness :
    close_results_and_next sActive = AdvanceResult.complete sActive
    ∧ ∃ s2, close_results_and_next sTwo = AdvanceResult.nextLesson s2
        ∧ s2.current_lesson_index = sTwo.current_lesson_index + 1 :=
  ⟨(advance_completes_or_increments sActive (by decide)).1 (by decide),
   (advance_completes_or_increments sTwo (by decide)).2 (by decide)⟩

theorem saveToStored (stored : List PyVal) (r : PyVal) :
    save_progress (.parsed (.pdict [("attempts", .plist stored)])) r
      = .written (.parsed (.pdict [("attempts", .plist (stored ++ [r]))])) := by
  simp [save_progress, lookupField, setField]

theorem runAppends_from_stored (records : List PyVal) :
    ∀ stored : List PyVal,
      runAppends (.parsed (.pdict [("attempts", .plist stored)])) records
        = some (.parsed (.pdict [("attempts", .plist (stored ++ records))])) := by
  induction records with
  | nil => intro stored; simp [runAppends]
  | cons r rs ih =>
    intro stored
    rw [runAppends, saveToStored stored r]
    show runAppends (.parsed (.pdict [("attempts", .plist (stored ++ [r]))])) rs = _
    rw [ih (stored ++ [r])]
    simp

/-- C8: appending `n` records against an initially empty (or absent)
progress sink leaves the persisted collection holding exactly those `n`
records in call order; each single append keeps every previously stored
record unchanged and adds the new one at the end. -/
theorem progress_append_accumulates_in_order :
    (∀ records : List PyVal,
      runAppends (.parsed (.pdict [("attempts", .plist [])])) records
        = some (.parsed (.pdict [("attempts", .plist records)])))
    ∧ (∀ (r : PyVal) (rs : List PyVal),
      runAppends .absent (r :: rs)
        = some (.parsed (.pdict [("attempts", .plist (r :: rs))])))
    ∧ (∀ (stored : List PyVal) (r : PyVal),
      save_progress (.parsed (.pdict [("attempts", .plist stored)])) r
        = .written (.parsed (.pdict [("attempts", .plist (stored ++ [r]))]))) := by
  refine ⟨?_, ?_, saveToStored⟩
  · intro records
    simpa using runAppends_from_stored records []
  · intro r rs
    rw [runAppends]
    show runAppends (.parsed (.pdict [("attempts", .plist [r])])) rs = _
    simpa using runAppends_from_stored rs [r]

/-- C5 counterexample: a lessons file that parses as JSON but lacks the
`"lessons"` key (e.g. a corrupted key name) makes `load_lessons` silently
return an empty list — no error of any kind is surfaced. -/
theorem corrupt_lessons_file_silently_yields_empty :
    load_lessons corruptLessonsFile = .ok (.plist [])
    ∧ isExnResult (load_lessons corruptLessonsFile) = false :=
  ⟨rfl, rfl⟩

/-- C5 (amended): syntactically malformed persisted data raises
`json.JSONDecodeError` to the caller from both loaders, and a progress file
that parses without an `"attempts"` key raises `KeyError`; but a lessons
file that parses without a `"lessons"` key silently yields an empty lesson
list instead of a parse failure. -/
theorem parse_failures_surfaced_except_missing_lessons_key :
    (load_lessons .unparseable = .exn .jsonDecodeError)
    ∧ (∀ r, save_progress .unparseable r = .exn .jsonDecodeError)
    ∧ (∀ (r : PyVal) (fields : List (String × PyVal)),
        lookupField "attempts" fields = none →
        save_progress (.parsed (.pdict fields)) r = .exn .keyError)
    ∧ (∀ fields : List (String × PyVal),
        lookupField "lessons" fields = none →
        load_lessons (.parsed (.pdict fields)) = .ok (.plist [])) := by
  refine ⟨rfl, fun r => rfl, ?_, ?_⟩
  · intro r fields h
    rw [save_progress]
    rw [h]
  · intro fields h
    rw [load_lessons, h]
    rfl

/-- C5 witness: the amended theorem applied at concrete file contents. -/
theorem parse_failures_surfaced_except_missing_lessons_key_witness :
    load_lessons .unparseable = .exn .jsonDecodeError
    ∧ save_progress .unparseable (.pint 0) = .exn .jsonDecodeError
    ∧ save_progress (.parsed (.pdict [])) (.pint 0) = .exn .keyError
    ∧ load_lessons (.parsed (.pdict [])) = .ok (.plist []) :=
  ⟨parse_failures_surfaced_except_missing_lessons_key.1,
   parse_failures_surfaced_except_missing_lessons_key.2.1 (.pint 0),
   parse_failures_surfaced_except_missing_lessons_key.2.2.1 (.pint 0) [] rfl,
   parse_failures_surfaced_except_missing_lessons_key.2.2.2 [] rfl⟩

/-- C7: whenever `load_lessons` yields an empty list (the source is absent,
or present with no lessons), the catalog initialisation installs the
single-element placeholder (id 1, title "No Lessons Found", content
pointing at the missing source); the initialised catalog is never empty. -/
theorem fallback_catalog_on_absent_or_empty :
    (∀ f, load_lessons f = .ok (.plist []) → initLessons f = some (.plist [placeholderLesson]))
    ∧ initLessons .absent = some (.plist [placeholderLesson])
    ∧ (∀ (g : FileContent) (v : PyVal), initLessons g = some v → pyTruthy v = true) := by
  have h1 : ∀ f, load_lessons f = .ok (.plist []) →
      initLessons f = some (.plist [placeholderLesson]) := by
    intro f h
    rw [initLessons, h]
    rfl
  refine ⟨h1, h1 .absent rfl, ?_⟩
  intro g v h
  rw [initLessons] at h
  cases hg : load_lessons g with
  | exn e => rw [hg] at h; exact absurd h (by simp)
  | ok w =>
    rw [hg] at h
    simp only [Option.some.injEq] at h
    rw [← h]
    by_cases hw : pyTruthy w
    · rw [if_pos hw]; exact hw
    · rw [if_neg hw]; rfl

/-- C7 witness: the theorem applied at the absent lesson source. -/
theorem fallback_catalog_on_absent_or_empty_witness :
    load_lessons .absent = .ok (.plist [])
    ∧ initLessons .absent = some (.plist [placeholderLesson])
    ∧ pyTruthy (.plist [placeholderLesson]) = true :=
  ⟨rfl, fallback_catalog_on_absent_or_empty.1 .absent rfl,
   fallback_catalog_on_absent_or_empty.2.2 .absent (.plist [placeholderLesson])
     (fallback_catalog_on_absent_or_empty.1 .absent rfl)⟩

end TypingGame

